import Mathlib

/-!
Parseman: the class template `parseman::Parser<E>` of src/parseman/Parser.hpp.

A shallow embedding of the `Parser` class template and of the parts of the C++
standard library its member functions call (`std::map::operator[]`,
`std::match_results::str`, formatted stream extraction, `std::regex`).

* `std::string` is a list of characters (`Str`).
* `std::map<E, V>` is a finite partial function `E → Option V`; `operator[]`
  is `index`, which inserts a value-initialised entry when the key is absent.
* The template parameter `T` of `Parser::get<T>` is a record `CppType` of
  what the template body uses of `T`: `typeid(T).hash_code()`, `T()`,
  `operator>>` and `operator<<`, over the type of the values of `T`.
* `assert` is modelled as compiled in (no `NDEBUG`), as the test program
  relies on it: a failed assertion is the outcome `aborted`.
* The standard library is libstdc++. Its `regex_search` on a default-constructed
  `std::regex` returns at once and leaves the `std::smatch` not ready; reading a
  sub-match of it is undefined behaviour that kills the process: the
  outcome `crashed`.
-/

namespace parseman

/-- The type `std::string`. -/
abbrev Str := List Char

/-! ## Standard library: maps -/

/-- The type `std::map<E, V>`, by its lookup function. -/
abbrev CppMap (E V : Type) := E → Option V

/-- Assignment `m[k] = v` on a map that is then read by lookup. -/
def CppMap.assign {E V : Type} [DecidableEq E] (m : CppMap E V) (k : E) (v : V) : CppMap E V :=
  fun k' => if k' = k then some v else m k'

/-- Read access `m[k]` of `std::map::operator[]`: the stored value, or, when the
key is absent, a value-initialised entry that is inserted first. The second
component is the map after the access. -/
def CppMap.index {E V : Type} [DecidableEq E] (m : CppMap E V) (k : E) (dflt : V) :
    V × CppMap E V :=
  match m k with
  | some v => (v, m)
  | none => (dflt, m.assign k dflt)

/-! ## Standard library: regular expressions, as used by the parser -/

/-- Outcome of constructing `std::regex(pattern, ECMAScript | multiline)`. -/
inductive Compiled (R : Type) where
  /-- The constructor returned a regular expression. -/
  | regex (re : R)
  /-- The constructor threw `std::regex_error`. -/
  | regex_error
  /-- The pattern lies outside the part of the grammar that is modelled. -/
  | unmodelled
  deriving DecidableEq, Repr

/-- An object of type `std::regex`, over the regular expressions `R` the
constructor builds from patterns. -/
inductive RegexObject (R : Type) where
  /-- The default-constructed `std::regex()`: it holds no automaton. -/
  | empty
  /-- The regular expression `std::regex(pattern, flags)` built from a pattern. -/
  | compiled (re : R)
  deriving DecidableEq, Repr

/-- The library facilities the header relies on whose behaviour is fixed by the
implementation: the regular-expression engine and the `type_info` hash codes. -/
structure Lib where
  /-- The regular expressions the constructor of `std::regex` builds from patterns. -/
  Regex : Type
  /-- The constructor `std::regex(pattern, ECMAScript | multiline)`. -/
  compile : Str → Compiled Regex
  /-- The call `std::regex_search(text, sm, re)` for an `re` built from a pattern: `none` when
  nothing matches, otherwise the sub-matches of the leftmost match, entry 0
  being the whole match and an entry `none` a group that did not take part in
  the match. -/
  regexSearch : Regex → Str → Option (List (Option Str))
  /-- The value `typeid(bool).hash_code()`. -/
  hashBool : Nat
  /-- The value `typeid(int).hash_code()`. -/
  hashInt : Nat
  /-- The value `typeid(std::string).hash_code()`. -/
  hashString : Nat

/-- The object `std::smatch` after `regex_search` with a regular expression built from a
pattern: the list of sub-matches, empty after a failed search. -/
def smatchOf (r : Option (List (Option Str))) : List (Option Str) :=
  r.getD []

/-- The call `sm.str(n)` on a ready `std::smatch` with an `int` argument: the argument
converts to `size_type` (modulo `2^64`); an index past the last group, or an
unmatched group, gives the empty string. -/
def smatchStr (sm : List (Option Str)) (n : Int) : Str :=
  match sm.get? (n % (2 : Int) ^ 64).toNat with
  | some (some s) => s
  | _ => []

/-! ## Standard library: formatted extraction from a `std::stringstream` -/

/-- The classification `std::isspace` in the classic locale. -/
def isSpace (c : Char) : Bool :=
  c == ' ' || c == '\t' || c == '\n' || c == '\x0b' || c == '\x0c' || c == '\r'

/-- What the input sentry does with `skipws` set: drop leading whitespace. -/
def skipws (s : Str) : Str :=
  s.dropWhile isSpace

/-- Extraction `ss >> temp` for `std::string temp`: the new value of `temp` and `!ss.fail()`.
Leading whitespace is skipped, then characters are taken up to the next
whitespace; nothing left after skipping sets `failbit` and leaves `temp`. -/
def extractString (text : Str) (temp : Str) : Str × Bool :=
  match skipws text with
  | [] => (temp, false)
  | c :: cs => ((c :: cs).takeWhile (fun x => !isSpace x), true)

/-- Extraction `ss >> std::boolalpha >> temp` for `bool temp`: after the skipped whitespace the
input has to spell `true` or `false`; anything else stores `false` and sets
`failbit`; nothing left after skipping sets `failbit` and leaves `temp`. -/
def extractBool (text : Str) (temp : Bool) : Bool × Bool :=
  match skipws text with
  | [] => (temp, false)
  | c :: cs =>
    if ['t', 'r', 'u', 'e'].isPrefixOf (c :: cs) then (true, true)
    else if ['f', 'a', 'l', 's', 'e'].isPrefixOf (c :: cs) then (false, true)
    else (false, false)

/-- Value of a run of decimal digits. -/
def digitsValue (ds : Str) : Nat :=
  ds.foldl (fun acc d => 10 * acc + (d.toNat - '0'.toNat)) 0

/-- Extraction `ss >> temp` for `int temp` (base ten): skipped whitespace, an optional sign, then
at least one digit. Without a digit `0` is stored and `failbit` set; a value
outside the range of `int` stores the nearest bound and sets `failbit`;
nothing left after skipping sets `failbit` and leaves `temp`. -/
def extractInt (text : Str) (temp : Int) : Int × Bool :=
  match skipws text with
  | [] => (temp, false)
  | c :: cs =>
    let body := if c = '-' ∨ c = '+' then cs else c :: cs
    let digits := body.takeWhile Char.isDigit
    if digits = [] then (0, false)
    else
      let v : Int := if c = '-' then -(digitsValue digits : Int) else (digitsValue digits : Int)
      if v < -(2 : Int) ^ 31 then (-(2 : Int) ^ 31, false)
      else if (2 : Int) ^ 31 - 1 < v then ((2 : Int) ^ 31 - 1, false)
      else (v, true)

/-! ## The template parameter of `get` -/

/-- What `Parser::get<T>` uses of its template argument `T`, whose values are `Val`. -/
structure CppType (Val : Type) where
  /-- The value `typeid(T).hash_code()`. -/
  hash : Nat
  /-- The value-initialised `T()`. -/
  init : Val
  /-- Extraction `temp_ss >> temp` from a stream holding the given text: the new value of
  `temp` and whether the stream is still good (`!fail()`). -/
  extract : Str → Val → Val × Bool
  /-- The text `std::cout << temp` writes. -/
  print : Val → Str

/-- The type `bool`; `std::cout` has no `boolalpha`, so it prints `1` or `0`. -/
def boolT (L : Lib) : CppType Bool where
  hash := L.hashBool
  init := false
  extract := extractBool
  print := fun b => if b then ['1'] else ['0']

/-- The type `int`. -/
def intT (L : Lib) : CppType Int where
  hash := L.hashInt
  init := 0
  extract := extractInt
  print := fun i => (toString i).toList

/-- The type `std::string`. -/
def stringT (L : Lib) : CppType Str where
  hash := L.hashString
  init := []
  extract := extractString
  print := fun s => s

/-! ## `parseman::Parser<E>` -/

/-- The data members of `Parser<E>`. -/
structure Parser (L : Lib) (E : Type) where
  /-- Member `std::map<E, std::regex> patmap`. -/
  patmap : CppMap E (RegexObject L.Regex)
  /-- Member `std::map<E, size_t> typemap`. -/
  typemap : CppMap E Nat
  /-- Member `std::string cmdline`. -/
  cmdline : Str

/-- The constructor `Parser(std::vector<std::string>& argv)`: the loop
`cmdline = cmdline + s + " "` over `argv`, on empty maps. -/
def Parser.new (L : Lib) (E : Type) (argv : List Str) : Parser L E where
  patmap := fun _ => none
  typemap := fun _ => none
  cmdline := argv.foldl (fun cmdline s => cmdline ++ s ++ [' ']) []

/-- The member function `getCmdline()`. -/
def getCmdline {L : Lib} {E : Type} (p : Parser L E) : Str :=
  p.cmdline

/-- The member function `setType(cmd, type)`: `typemap[cmd] = type.hash_code()`. -/
def setType {L : Lib} {E : Type} [DecidableEq E] (p : Parser L E) (cmd : E) (hash : Nat) :
    Parser L E :=
  { p with typemap := p.typemap.assign cmd hash }

/-- How a call of `setPattern` can end other than by returning. -/
inductive SetPatternFailure where
  /-- The constructor of `std::regex` threw `std::regex_error`. -/
  | regex_error
  /-- The pattern lies outside the modelled part of the grammar. -/
  | unmodelled
  deriving DecidableEq, Repr

/-- The member function `setPattern(cmd, pattern)`:
`patmap[cmd] = std::regex(pattern, ECMAScript | multiline)`. The right operand
is evaluated first, so a throwing constructor leaves the map untouched. -/
def setPattern {L : Lib} {E : Type} [DecidableEq E] (p : Parser L E) (cmd : E) (pattern : Str) :
    Except SetPatternFailure (Parser L E) :=
  match L.compile pattern with
  | .regex re => .ok { p with patmap := p.patmap.assign cmd (.compiled re) }
  | .regex_error => .error .regex_error
  | .unmodelled => .error .unmodelled

/-- How a call of `get<T>` ends. -/
inductive Outcome (α : Type) where
  /-- The call returned the value `temp`. -/
  | returned (temp : α)
  /-- The call threw `BadParserType`. -/
  | BadParserType
  /-- The `assert` failed: the process is aborted. -/
  | aborted
  /-- Undefined behaviour killed the process: `sm_result.str(submatch)` on an
  `std::smatch` that is not ready. -/
  | crashed
  deriving DecidableEq, Repr

/-- A call of `get<T>`: how it ended, the data members afterwards, and the text
written to `std::cout`. -/
structure GetResult (L : Lib) (E : Type) (α : Type) where
  /-- How the call ended. -/
  outcome : Outcome α
  /-- The data members after the call. -/
  state : Parser L E
  /-- The text written to `std::cout`. -/
  out : Str

/-- The member function `get<T>(cmd, submatch)` (Parser.hpp, lines 104 to 125): the guard on the
type tags, the search of `cmdline` for `patmap[cmd]`, the extraction of
`sm_result.str(submatch)` from a `std::stringstream` into `temp` (unchecked in the
boolean branch, inside `assert` otherwise), the print of `temp` and its return.
Both `typemap[cmd]` and `patmap[cmd]` are `operator[]` on the member maps. When
`patmap[cmd]` is a default-constructed `std::regex`, `regex_search` returns without
making `sm_result` ready, and `sm_result.str(submatch)` kills the process. -/
def get {L : Lib} {E : Type} [DecidableEq E] {Val : Type} (T : CppType Val) (p : Parser L E)
    (cmd : E) (submatch : Int := 2) : GetResult L E Val :=
  -- `typemap[cmd]` is read in the first operand of `&&`
  let declared := (p.typemap.index cmd 0).1
  let p1 : Parser L E := { p with typemap := (p.typemap.index cmd 0).2 }
  if T.hash ≠ declared ∧ T.hash ≠ L.hashBool then
    ⟨.BadParserType, p1, []⟩
  else
    let temp := T.init
    let p2 : Parser L E := { p1 with patmap := (p1.patmap.index cmd .empty).2 }
    match (p1.patmap.index cmd .empty).1 with
    | .empty => ⟨.crashed, p2, []⟩
    | .compiled re =>
      let sm_result := smatchOf (L.regexSearch re p2.cmdline)
      let text := smatchStr sm_result submatch
      if T.hash = L.hashBool then
        -- the state of the stream is not looked at
        let temp := (T.extract text temp).1
        ⟨.returned temp, p2, T.print temp ++ ['\n']⟩
      else if (T.extract text temp).2 then
        let temp := (T.extract text temp).1
        ⟨.returned temp, p2, T.print temp ++ ['\n']⟩
      else
        ⟨.aborted, p2, []⟩

/-! ## A reference instance of the library

A backtracking matcher for the part of the ECMAScript grammar of `std::regex`
made of literal characters, `.`, the class escapes `\d \s \w` (and their
complements), identity escapes, capturing and non-capturing groups,
alternation, and the quantifiers `* + ?` (greedy or lazy) applied to a
single-character atom. Everything else (lookahead included) is reported as
`unmodelled`, except the one syntax error the development needs: `(?` followed
by a character other than `:`, `=` or `!` makes the constructor throw. -/

/-- A matcher of one character. -/
inductive CharSet where
  /-- The given character. -/
  | chr (c : Char)
  /-- The atom `.`: any character but a line terminator. -/
  | any
  /-- The escapes `\d` and, negated, `\D`. -/
  | digit (neg : Bool)
  /-- The escapes `\s` and, negated, `\S`. -/
  | space (neg : Bool)
  /-- The escapes `\w` and, negated, `\W`. -/
  | word (neg : Bool)
  deriving DecidableEq, Repr

/-- Whether the character is matched. -/
def CharSet.test : CharSet → Char → Bool
  | .chr c, x => x == c
  | .any, x => !(x == '\n' || x == '\r')
  | .digit neg, x => x.isDigit != neg
  | .space neg, x => isSpace x != neg
  | .word neg, x => (x.isAlphanum || x == '_') != neg

/-- Abstract syntax of the modelled patterns. -/
inductive Re where
  /-- The empty pattern. -/
  | empty
  /-- One character. -/
  | one (a : CharSet)
  /-- The quantifier `a*` (greedy) or `a*?` (lazy) on a one-character atom. -/
  | star (a : CharSet) (greedy : Bool)
  /-- Concatenation. -/
  | seq (r t : Re)
  /-- Alternation `r|t`, the left alternative first. -/
  | alt (r t : Re)
  /-- Capturing group number `i`. -/
  | group (i : Nat) (r : Re)
  deriving DecidableEq, Repr

/-- Captured groups, the latest capture of a group first. -/
abbrev Caps := List (Nat × Str)

/-- The quantifier `a*` or `a*?` followed by the continuation `k`. -/
def starRun (a : CharSet) (greedy : Bool) :
    Str → Caps → (Str → Caps → Option (Str × Caps)) → Option (Str × Caps)
  | [], c, k => k [] c
  | x :: xs, c, k =>
    if a.test x then
      if greedy then (starRun a greedy xs c k).orElse (fun _ => k (x :: xs) c)
      else (k (x :: xs) c).orElse (fun _ => starRun a greedy xs c k)
    else k (x :: xs) c

/-- Backtracking match of a pattern at the head of the input, followed by the
continuation `k` on the rest of the input. -/
def Re.run : Re → Str → Caps → (Str → Caps → Option (Str × Caps)) → Option (Str × Caps)
  | .empty, s, c, k => k s c
  | .one _, [], _, _ => none
  | .one a, x :: xs, c, k => if a.test x then k xs c else none
  | .star a greedy, s, c, k => starRun a greedy s c k
  | .seq r t, s, c, k => r.run s c (fun s' c' => t.run s' c' k)
  | .alt r t, s, c, k => (r.run s c k).orElse (fun _ => t.run s c k)
  | .group i r, s, c, k =>
    r.run s c (fun s' c' => k s' ((i, s.take (s.length - s'.length)) :: c'))

/-- The sub-matches of a match that starts at the head of `s` and leaves `rest`. -/
def subMatches (marks : Nat) (s rest : Str) (c : Caps) : List (Option Str) :=
  some (s.take (s.length - rest.length)) ::
    (List.range marks).map (fun i => c.lookup (i + 1))

/-- Leftmost match: the first start position at which the pattern matches. -/
def searchFrom (r : Re) (marks : Nat) : Str → Option (List (Option Str))
  | [] =>
    match r.run [] [] (fun s' c' => some (s', c')) with
    | some (rest, c) => some (subMatches marks [] rest c)
    | none => none
  | x :: xs =>
    match r.run (x :: xs) [] (fun s' c' => some (s', c')) with
    | some (rest, c) => some (subMatches marks (x :: xs) rest c)
    | none => searchFrom r marks xs

/-- Result of parsing a (sub)pattern. -/
inductive Parsed where
  /-- The pattern read, the input left, and the number of groups opened so far. -/
  | ok (r : Re) (rest : Str) (marks : Nat)
  /-- The constructor throws `std::regex_error`. -/
  | regex_error
  /-- Outside the modelled grammar. -/
  | unmodelled
  deriving DecidableEq, Repr

/-- The class escapes and the identity escapes of punctuation. -/
def escapeOf (c : Char) : Option CharSet :=
  if c = 'd' then some (.digit false) else if c = 'D' then some (.digit true)
  else if c = 's' then some (.space false) else if c = 'S' then some (.space true)
  else if c = 'w' then some (.word false) else if c = 'W' then some (.word true)
  else if c.isAlphanum || c == '_' then none
  else some (.chr c)

/-- An optional quantifier after a one-character atom. -/
def quantify (a : CharSet) : Str → Re × Str
  | '*' :: '?' :: t => (.star a false, t)
  | '*' :: t => (.star a true, t)
  | '+' :: '?' :: t => (.seq (.one a) (.star a false), t)
  | '+' :: t => (.seq (.one a) (.star a true), t)
  | '?' :: '?' :: t => (.alt .empty (.one a), t)
  | '?' :: t => (.alt (.one a) .empty, t)
  | t => (.one a, t)

/-- Whether the input goes on with a quantifier or a brace. -/
def quantifierNext : Str → Bool
  | c :: _ => c == '*' || c == '+' || c == '?' || c == '{'
  | [] => false

/-- Characters that are not literal atoms outside a class. -/
def isSpecial (c : Char) : Bool :=
  c == '*' || c == '+' || c == '?' || c == '[' || c == ']' || c == '{' || c == '}' ||
    c == '^' || c == '$' || c == '\\' || c == '(' || c == ')' || c == '|' || c == '.'

/-- Reads a disjunction up to a closing parenthesis or the end of the pattern.
`acc` is the alternative read so far, `marks` the number of capturing groups
opened so far. -/
def parseDisj : Nat → Str → Nat → Re → Parsed
  | 0, _, _, _ => .unmodelled
  | _ + 1, [], marks, acc => .ok acc [] marks
  | fuel + 1, c :: t, marks, acc =>
    if c = ')' then .ok acc (c :: t) marks
    else if c = '|' then
      match parseDisj fuel t marks .empty with
      | .ok r rest marks' => .ok (.alt acc r) rest marks'
      | e => e
    else if c = '(' then
      match t with
      | '?' :: ':' :: u =>
        match parseDisj fuel u marks .empty with
        | .ok r (')' :: rest) marks' =>
          if quantifierNext rest then .unmodelled else parseDisj fuel rest marks' (.seq acc r)
        | .ok _ _ _ => .unmodelled
        | e => e
      | '?' :: '=' :: _ => .unmodelled
      | '?' :: '!' :: _ => .unmodelled
      | '?' :: _ => .regex_error
      | u =>
        match parseDisj fuel u (marks + 1) .empty with
        | .ok r (')' :: rest) marks' =>
          if quantifierNext rest then .unmodelled
          else parseDisj fuel rest marks' (.seq acc (.group (marks + 1) r))
        | .ok _ _ _ => .unmodelled
        | e => e
    else if c = '\\' then
      match t with
      | [] => .unmodelled
      | e :: u =>
        match escapeOf e with
        | some a => parseDisj fuel (quantify a u).2 marks (.seq acc (quantify a u).1)
        | none => .unmodelled
    else if c = '.' then
      parseDisj fuel (quantify .any t).2 marks (.seq acc (quantify .any t).1)
    else if isSpecial c then .unmodelled
    else parseDisj fuel (quantify (.chr c) t).2 marks (.seq acc (quantify (.chr c) t).1)

/-- The regular expressions of the reference instance. -/
inductive StdRegex where
  /-- A compiled pattern with its number of capturing groups. -/
  | pat (r : Re) (marks : Nat)
  deriving DecidableEq, Repr

/-- The constructor `std::regex(pattern, ECMAScript | multiline)` of the reference instance. -/
def compilePattern (pattern : Str) : Compiled StdRegex :=
  match parseDisj (pattern.length + 1) pattern 0 .empty with
  | .ok r [] marks => .regex (.pat r marks)
  | .ok _ _ _ => .unmodelled
  | .regex_error => .regex_error
  | .unmodelled => .unmodelled

/-- The call `std::regex_search` of the reference instance. -/
def stdSearch : StdRegex → Str → Option (List (Option Str))
  | .pat r marks, s => searchFrom r marks s

/-- The reference instance. Hash codes are implementation-defined; three
pairwise different non-zero values stand for them. -/
@[reducible] def refLib : Lib where
  Regex := StdRegex
  compile := compilePattern
  regexSearch := stdSearch
  hashBool := 11
  hashInt := 12
  hashString := 13

/-! ## The test program (test/main.cpp) -/

/-- The enumeration `Tests`. -/
inductive Tests where
  | BoolVal
  | IntegerVal
  | DoubleVal
  | StringVal
  deriving DecidableEq, Repr

/-- The string `line` of `main`. -/
def line : Str :=
  "test --bool-val true -i 90 --double 1.5 s \"Hello, World!\"".toList

/-- The statements `Parser<Tests> p {argv}; p.setType(cmd, hash); p.setPattern(cmd, pattern);`
as in `main`: the parser they leave, `none` when `setPattern` does not return. -/
def setup (argv : List Str) (cmd : Tests) (hash : Nat) (pattern : String) :
    Option (Parser refLib Tests) :=
  (setPattern (setType (Parser.new refLib Tests argv) cmd hash) cmd pattern.toList).toOption

/-- The pattern `(-i\s*)(\d+)` of the test, as `compilePattern` reads it. -/
def intRegex : StdRegex :=
  .pat
    (.seq
      (.seq .empty
        (.group 1
          (.seq (.seq (.seq .empty (.one (.chr '-'))) (.one (.chr 'i')))
            (.star (.space false) true))))
      (.group 2 (.seq .empty (.seq (.one (.digit false)) (.star (.digit false) true)))))
    2

/-- The parser left by `Parser<Tests> p {argv}; p.setType(IntegerVal, typeid(int));
p.setPattern(IntegerVal, "(-i\\s*)(\\d+)");`. -/
def intParser (argv : List Str) : Parser refLib Tests :=
  { setType (Parser.new refLib Tests argv) .IntegerVal refLib.hashInt with
    patmap := (Parser.new refLib Tests argv).patmap.assign .IntegerVal (.compiled intRegex) }

/-- The parser left by `Parser<Tests> p {argv}; p.setPattern(IntegerVal, "(-i\\s*)(\\d+)");`:
a pattern and no declared type for `IntegerVal`. -/
def intPatternOnly (argv : List Str) : Parser refLib Tests :=
  { Parser.new refLib Tests argv with
    patmap := (Parser.new refLib Tests argv).patmap.assign .IntegerVal (.compiled intRegex) }

/-- The statements `Parser<Tests> p {argv}; p.setPattern(cmd, pattern);`: the parser they
leave, with a pattern and no declared type for `cmd`; `none` when `setPattern`
does not return. -/
def setupPattern (argv : List Str) (cmd : Tests) (pattern : String) :
    Option (Parser refLib Tests) :=
  (setPattern (Parser.new refLib Tests argv) cmd pattern.toList).toOption

/-! ## Derived notions used in the statements -/

/-- The result of searching the command line for the pattern registered for a
key by `setPattern`; `none` also when no such pattern is held. -/
def searchResult {L : Lib} {E : Type} (p : Parser L E) (cmd : E) : Option (List (Option Str)) :=
  match p.patmap cmd with
  | some (.compiled re) => L.regexSearch re p.cmdline
  | _ => none

/-- The text `sm_result.str(submatch)` that `get` hands to the extraction, for a key that
holds a pattern registered by `setPattern`. -/
def extractedText {L : Lib} {E : Type} (p : Parser L E) (cmd : E) (submatch : Int) : Str :=
  smatchStr (smatchOf (searchResult p cmd)) submatch

/-- The tag `typemap[cmd]` reads: the declared one, or `0` when none is declared. -/
def declaredTag {L : Lib} {E : Type} (p : Parser L E) (cmd : E) : Nat :=
  (p.typemap cmd).getD 0

/-- The guard of `get` lets a request of `T` pass: `T` is boolean by its tag, or
its tag is the one `typemap[cmd]` reads. -/
def passesTypeCheck {L : Lib} {E : Type} {Val : Type} (T : CppType Val) (p : Parser L E)
    (cmd : E) : Prop :=
  T.hash = L.hashBool ∨ T.hash = declaredTag p cmd

/-- What the conversion of `get<T>` makes of the extracted text: in the boolean
branch (by the tag of `T`) the value the unchecked extraction leaves in
`temp`; otherwise that value when the stream is good, and the failed `assert`
when it is not. -/
def conversion {Val : Type} (L : Lib) (T : CppType Val) (text : Str) : Outcome Val :=
  if T.hash = L.hashBool then .returned (T.extract text T.init).1
  else if (T.extract text T.init).2 then .returned (T.extract text T.init).1
  else .aborted

/-! ## Lemmas on the library model -/

theorem CppMap.index_of_some {E V : Type} [DecidableEq E] {m : CppMap E V} {k : E} {v : V}
    (dflt : V) (h : m k = some v) : m.index k dflt = (v, m) := by
  simp [CppMap.index, h]

theorem CppMap.index_of_none {E V : Type} [DecidableEq E] {m : CppMap E V} {k : E}
    (dflt : V) (h : m k = none) : m.index k dflt = (dflt, m.assign k dflt) := by
  simp [CppMap.index, h]

theorem CppMap.assign_same {E V : Type} [DecidableEq E] (m : CppMap E V) (k : E) (v : V) :
    m.assign k v k = some v := by
  simp [CppMap.assign]

theorem CppMap.assign_other {E V : Type} [DecidableEq E] (m : CppMap E V) {k k' : E} (v : V)
    (h : k' ≠ k) : m.assign k v k' = m k' := by
  simp [CppMap.assign, h]

/-- After `m[k]` the key is present with the value that was read. -/
theorem CppMap.index_lookup {E V : Type} [DecidableEq E] (m : CppMap E V) (k : E) (dflt : V) :
    (m.index k dflt).2 k = some (m.index k dflt).1 := by
  cases h : m k with
  | none => simp [CppMap.index_of_none dflt h, CppMap.assign_same]
  | some v => simp [CppMap.index_of_some dflt h, h]

/-- Reading `m[k]` a second time reads the same value and changes nothing more. -/
theorem CppMap.index_index {E V : Type} [DecidableEq E] (m : CppMap E V) (k : E) (dflt : V) :
    (m.index k dflt).2.index k dflt = m.index k dflt := by
  rw [CppMap.index_of_some dflt (CppMap.index_lookup m k dflt)]

/-- Reading `m[k]` leaves the entries of the other keys alone. -/
theorem CppMap.index_other {E V : Type} [DecidableEq E] (m : CppMap E V) {k k' : E} (dflt : V)
    (h : k' ≠ k) : (m.index k dflt).2 k' = m k' := by
  cases hk : m k with
  | none => simp [CppMap.index_of_none dflt hk, CppMap.assign_other _ _ h]
  | some v => simp [CppMap.index_of_some dflt hk]

theorem smatchStr_nil (n : Int) : smatchStr [] n = [] := by
  simp [smatchStr]

theorem extractBool_nil (temp : Bool) : extractBool [] temp = (temp, false) := by
  simp [extractBool, skipws]

/-- A failed extraction of a `bool` leaves or stores `false`. -/
theorem extractBool_fail (text : Str) (h : (extractBool text false).2 = false) :
    (extractBool text false).1 = false := by
  unfold extractBool at h ⊢
  split
  · rfl
  · split
    · simp_all
    · split <;> rfl

theorem not_isSpace_of_isDigit {c : Char} (h : c.isDigit = true) : isSpace c = false := by
  by_contra hs
  have hs' : isSpace c = true := by simpa using hs
  simp only [isSpace, Bool.or_eq_true, beq_iff_eq] at hs'
  rcases hs' with ((((h1 | h1) | h1) | h1) | h1) | h1 <;> subst h1 <;> exact absurd h (by decide)

theorem ne_minus_of_isDigit {c : Char} (h : c.isDigit = true) : c ≠ '-' := by
  intro hc
  subst hc
  exact absurd h (by decide)

theorem ne_plus_of_isDigit {c : Char} (h : c.isDigit = true) : c ≠ '+' := by
  intro hc
  subst hc
  exact absurd h (by decide)

/-- Extraction of an `int` from a run of digits whose value fits. -/
theorem extractInt_digits (digits : Str) (temp : Int) (hne : digits ≠ [])
    (hdig : ∀ c ∈ digits, c.isDigit = true) (hfit : digitsValue digits < 2 ^ 31) :
    extractInt digits temp = ((digitsValue digits : Int), true) := by
  cases digits with
  | nil => exact absurd rfl hne
  | cons c cs =>
    have hc : c.isDigit = true := hdig c (List.mem_cons_self c cs)
    have hskip : skipws (c :: cs) = c :: cs := by
      simp [skipws, List.dropWhile_cons, not_isSpace_of_isDigit hc]
    have htake : List.takeWhile Char.isDigit (c :: cs) = c :: cs :=
      List.takeWhile_eq_self_iff.mpr hdig
    have hfit' : (digitsValue (c :: cs) : Int) < 2 ^ 31 := by exact_mod_cast hfit
    have hnonneg : (0 : Int) ≤ (digitsValue (c :: cs) : Int) := Int.natCast_nonneg _
    unfold extractInt
    rw [hskip]
    simp only [ne_minus_of_isDigit hc, ne_plus_of_isDigit hc, or_self, if_false, htake]
    rw [if_neg (by simp), if_neg (by omega), if_neg (by omega)]

/-! ### Decimal numerals -/

theorem digitsValue_foldl (acc : Nat) (ds : Str) :
    ds.foldl (fun acc d => 10 * acc + (d.toNat - '0'.toNat)) acc =
      acc * 10 ^ ds.length + digitsValue ds := by
  induction ds generalizing acc with
  | nil => simp [digitsValue]
  | cons d ds ih =>
    simp only [List.foldl_cons, List.length_cons, digitsValue]
    rw [ih, ih (10 * 0 + _)]
    ring

theorem digitChar_value (d : Nat) (h : d < 10) :
    (Nat.digitChar d).toNat - '0'.toNat = d ∧ (Nat.digitChar d).isDigit = true := by
  interval_cases d <;> decide

theorem toDigitsCore_value (fuel n : Nat) (ds : Str) (h : n < fuel) :
    digitsValue (Nat.toDigitsCore 10 fuel n ds) = n * 10 ^ ds.length + digitsValue ds := by
  induction fuel generalizing n ds with
  | zero => omega
  | succ fuel ih =>
    unfold Nat.toDigitsCore
    simp only []
    have hd := (digitChar_value (n % 10) (Nat.mod_lt _ (by decide))).1
    have hcons : digitsValue (Nat.digitChar (n % 10) :: ds) =
        (n % 10) * 10 ^ ds.length + digitsValue ds := by
      have := digitsValue_foldl (10 * 0 + ((Nat.digitChar (n % 10)).toNat - '0'.toNat)) ds
      simp only [digitsValue, List.foldl_cons]
      rw [this, hd]
      simp [digitsValue]
    split
    · rename_i h0
      rw [hcons]
      have : n = n % 10 := by omega
      rw [← this]
    · rename_i h0
      rw [ih (n / 10) _ (by omega), hcons, List.length_cons]
      have e : n * 10 ^ ds.length = (10 * (n / 10) + n % 10) * 10 ^ ds.length := by
        rw [Nat.div_add_mod n 10]
      rw [e]
      ring


theorem toDigits_isDigit (fuel n : Nat) (ds : Str) (hds : ∀ c ∈ ds, c.isDigit = true) :
    ∀ c ∈ Nat.toDigitsCore 10 fuel n ds, c.isDigit = true := by
  induction fuel generalizing n ds with
  | zero => simpa [Nat.toDigitsCore] using hds
  | succ fuel ih =>
    unfold Nat.toDigitsCore
    simp only []
    have hd := (digitChar_value (n % 10) (Nat.mod_lt _ (by decide))).2
    have hcons : ∀ c ∈ Nat.digitChar (n % 10) :: ds, c.isDigit = true := by
      intro c hc
      rcases List.mem_cons.mp hc with h | h
      · rw [h]; exact hd
      · exact hds c h
    split
    · exact hcons
    · exact ih _ _ hcons

theorem toDigitsCore_ne_nil (fuel n : Nat) (ds : Str) (h : n < fuel) :
    Nat.toDigitsCore 10 fuel n ds ≠ [] := by
  induction fuel generalizing n ds with
  | zero => omega
  | succ fuel ih =>
    unfold Nat.toDigitsCore
    simp only []
    split
    · simp
    · exact ih _ _ (by omega)

/-- The decimal numeral of `n` is a non-empty run of digits of value `n`. -/
theorem toDigits_spec (n : Nat) :
    Nat.toDigits 10 n ≠ [] ∧ (∀ c ∈ Nat.toDigits 10 n, c.isDigit = true) ∧
      digitsValue (Nat.toDigits 10 n) = n := by
  refine ⟨toDigitsCore_ne_nil _ _ _ (Nat.lt_succ_self n),
    toDigits_isDigit _ _ _ (by simp), ?_⟩
  have h := toDigitsCore_value (n + 1) n [] (Nat.lt_succ_self n)
  simpa [digitsValue] using h

/-- The loop of the constructor, started from any accumulated text. -/
theorem foldl_cmdline (init : Str) (argv : List Str) :
    argv.foldl (fun cmdline s => cmdline ++ s ++ [' ']) init =
      init ++ (argv.map (fun s => s ++ [' '])).flatten := by
  induction argv generalizing init with
  | nil => simp
  | cons s ss ih =>
    rw [List.foldl_cons, ih, List.map_cons, List.flatten_cons]
    simp only [List.append_assoc]

/-- The constructor of `std::regex` reads the pattern of the integer test as `intRegex`. -/
theorem compile_intRegex : compilePattern "(-i\\s*)(\\d+)".toList = .regex intRegex := by
  decide

/-- The registration statements of the integer test leave `intParser`. -/
theorem setPattern_intParser (argv : List Str) :
    setPattern (setType (Parser.new refLib Tests argv) .IntegerVal refLib.hashInt) .IntegerVal
      "(-i\\s*)(\\d+)".toList = .ok (intParser argv) := by
  have h : refLib.compile "(-i\\s*)(\\d+)".toList = .regex intRegex := compile_intRegex
  unfold setPattern
  rw [h]
  rfl

/-- The pattern `(?<=s\s+")(.*?)(?=")` of the text test is rejected: the grammar of
`std::regex` has no lookbehind, so `setPattern` throws `std::regex_error`. -/
theorem setPattern_lookbehind (p : Parser refLib Tests) :
    setPattern p .StringVal "(?<=s\\s+\")(.*?)(?=\")".toList = .error .regex_error := by
  have h : compilePattern "(?<=s\\s+\")(.*?)(?=\")".toList = .regex_error := by decide
  have h : refLib.compile "(?<=s\\s+\")(.*?)(?=\")".toList = .regex_error := h
  unfold setPattern
  rw [h]

/-! ## Lemmas on `get` -/

section GetLemmas

variable {L : Lib} {E : Type} [DecidableEq E] {Val : Type}

/-- The tag `typemap[cmd]` reads. -/
theorem index_typemap (p : Parser L E) (cmd : E) :
    (p.typemap.index cmd 0).1 = declaredTag p cmd := by
  unfold declaredTag
  cases h : p.typemap cmd with
  | none => simp [CppMap.index_of_none 0 h]
  | some d => simp [CppMap.index_of_some 0 h]

/-- The guard of `get` does not throw exactly when the request passes the type check. -/
theorem guard_iff (T : CppType Val) (p : Parser L E) (cmd : E) :
    ¬ (T.hash ≠ (p.typemap.index cmd 0).1 ∧ T.hash ≠ L.hashBool) ↔ passesTypeCheck T p cmd := by
  rw [index_typemap]
  unfold passesTypeCheck
  constructor
  · intro h
    by_cases hb : T.hash = L.hashBool
    · exact Or.inl hb
    · by_cases hd : T.hash = declaredTag p cmd
      · exact Or.inr hd
      · exact absurd ⟨hd, hb⟩ h
  · rintro (hb | hd) ⟨h1, h2⟩
    · exact h2 hb
    · exact h1 hd

/-- The guard of `get` throws, and nothing after it is run. -/
theorem get_of_mismatch (T : CppType Val) (p : Parser L E) (cmd : E) (submatch : Int)
    (h : T.hash ≠ (p.typemap.index cmd 0).1 ∧ T.hash ≠ L.hashBool) :
    get T p cmd submatch =
      ⟨.BadParserType, { p with typemap := (p.typemap.index cmd 0).2 }, []⟩ := by
  unfold get
  simp only [if_pos h]

/-- Past the guard, `get` never throws. -/
theorem get_outcome_of_pass (T : CppType Val) (p : Parser L E) (cmd : E) (submatch : Int)
    (h : ¬ (T.hash ≠ (p.typemap.index cmd 0).1 ∧ T.hash ≠ L.hashBool)) :
    (get T p cmd submatch).outcome ≠ .BadParserType := by
  unfold get
  simp only [if_neg h]
  split
  · simp
  · split
    · simp
    · split <;> simp

/-- Past the guard, with a pattern registered by `setPattern`, the call ends as the
conversion of the selected submatch text does. -/
theorem get_outcome_of_compiled (T : CppType Val) (p : Parser L E) (cmd : E) (submatch : Int)
    (re : L.Regex) (hpat : p.patmap cmd = some (.compiled re))
    (h : ¬ (T.hash ≠ (p.typemap.index cmd 0).1 ∧ T.hash ≠ L.hashBool)) :
    (get T p cmd submatch).outcome = conversion L T (extractedText p cmd submatch) := by
  unfold get conversion extractedText searchResult
  simp only [if_neg h, CppMap.index_of_some _ hpat, hpat]
  split
  · rfl
  · split <;> rfl

/-- Past the guard, a key whose `patmap[cmd]` is a default-constructed `std::regex`
(inserted now, or held already) kills the process. -/
theorem get_outcome_of_empty (T : CppType Val) (p : Parser L E) (cmd : E) (submatch : Int)
    (hpat : p.patmap cmd = none ∨ p.patmap cmd = some .empty)
    (h : ¬ (T.hash ≠ (p.typemap.index cmd 0).1 ∧ T.hash ≠ L.hashBool)) :
    (get T p cmd submatch).outcome = .crashed ∧ (get T p cmd submatch).out = [] := by
  have hidx : (p.patmap.index cmd .empty).1 = .empty := by
    rcases hpat with hpat | hpat
    · rw [CppMap.index_of_none _ hpat]
    · rw [CppMap.index_of_some _ hpat]
  unfold get
  simp only [if_neg h, hidx]
  constructor <;> first | rfl | trivial

/-- A boolean request for a key with a registered pattern returns what the
extraction stored, whatever the state of the stream. -/
theorem get_bool_outcome (p : Parser L E) (cmd : E) (submatch : Int) (re : L.Regex)
    (hpat : p.patmap cmd = some (.compiled re)) :
    (get (boolT L) p cmd submatch).outcome =
      .returned (extractBool (extractedText p cmd submatch) false).1 := by
  rw [get_outcome_of_compiled (boolT L) p cmd submatch re hpat (by simp [boolT])]
  simp [conversion, boolT]

/-- The data members after a call of `get`. -/
theorem get_state (T : CppType Val) (p : Parser L E) (cmd : E) (submatch : Int) :
    (get T p cmd submatch).state =
      if T.hash ≠ (p.typemap.index cmd 0).1 ∧ T.hash ≠ L.hashBool then
        { p with typemap := (p.typemap.index cmd 0).2 }
      else
        { p with typemap := (p.typemap.index cmd 0).2,
                 patmap := (p.patmap.index cmd .empty).2 } := by
  by_cases h : T.hash ≠ (p.typemap.index cmd 0).1 ∧ T.hash ≠ L.hashBool
  · rw [get_of_mismatch T p cmd submatch h, if_pos h]
  · rw [if_neg h]
    unfold get
    simp only [if_neg h]
    split
    · rfl
    · split
      · rfl
      · split <;> rfl

/-- The outcome and the output of `get` depend on the data members only through
the declared tag read, the pattern read and the command line. -/
theorem get_congr (T : CppType Val) (p q : Parser L E) (cmd : E) (submatch : Int)
    (htype : (q.typemap.index cmd 0).1 = (p.typemap.index cmd 0).1)
    (hpat : (q.patmap.index cmd .empty).1 = (p.patmap.index cmd .empty).1)
    (hcmd : q.cmdline = p.cmdline) :
    (get T q cmd submatch).outcome = (get T p cmd submatch).outcome ∧
      (get T q cmd submatch).out = (get T p cmd submatch).out := by
  by_cases h : T.hash ≠ (p.typemap.index cmd 0).1 ∧ T.hash ≠ L.hashBool
  · rw [get_of_mismatch T p cmd submatch h, get_of_mismatch T q cmd submatch (htype ▸ h)]
    exact ⟨rfl, rfl⟩
  · have hq : ¬ (T.hash ≠ (q.typemap.index cmd 0).1 ∧ T.hash ≠ L.hashBool) := htype ▸ h
    unfold get
    simp only [if_neg h, if_neg hq, hpat, hcmd]
    split
    · exact ⟨rfl, rfl⟩
    · split
      · exact ⟨rfl, rfl⟩
      · split <;> exact ⟨rfl, rfl⟩

/-- A call that is not killed leaves the pattern map as it was. -/
theorem get_patmap_of_not_crashed (T : CppType Val) (p : Parser L E) (cmd : E)
    (submatch : Int) (h : (get T p cmd submatch).outcome ≠ .crashed) :
    (get T p cmd submatch).state.patmap = p.patmap := by
  rw [get_state]
  split
  · rfl
  · rename_i hg
    cases hp : p.patmap cmd with
    | none => exact absurd (get_outcome_of_empty T p cmd submatch (Or.inl hp) hg).1 h
    | some o =>
      show (p.patmap.index cmd .empty).2 = p.patmap
      rw [CppMap.index_of_some _ hp]

/-- An entry the pattern map holds for the key is never replaced. -/
theorem get_patmap_of_held (T : CppType Val) (p : Parser L E) (cmd : E) (submatch : Int)
    (o : RegexObject L.Regex) (hp : p.patmap cmd = some o) :
    (get T p cmd submatch).state.patmap = p.patmap := by
  rw [get_state]
  split
  · rfl
  · show (p.patmap.index cmd .empty).2 = p.patmap
    rw [CppMap.index_of_some _ hp]

/-- For a key declared with the tag of a type `T` that is not boolean and holding
a registered pattern, a failed extraction ends `get<T>` in the failed assertion. -/
theorem get_aborted_of_failed_extraction (T : CppType Val) (p : Parser L E) (cmd : E)
    (submatch : Int) (re : L.Regex) (hpat : p.patmap cmd = some (.compiled re))
    (htype : p.typemap cmd = some T.hash) (hnb : T.hash ≠ L.hashBool)
    (hfail : (T.extract (extractedText p cmd submatch) T.init).2 = false) :
    (get T p cmd submatch).outcome = .aborted := by
  rw [get_outcome_of_compiled T p cmd submatch re hpat
    (by rw [CppMap.index_of_some _ htype]; simp)]
  simp [conversion, hnb, hfail]

/-- What a boolean request returns for a key with a registered pattern: `true`
exactly when the selected submatch text, after leading whitespace, begins
with `true`. -/
theorem get_bool_eq_true_iff (p : Parser L E) (cmd : E) (submatch : Int) (re : L.Regex)
    (hpat : p.patmap cmd = some (.compiled re)) :
    (get (boolT L) p cmd submatch).outcome = .returned true ↔
      ['t', 'r', 'u', 'e'].isPrefixOf (skipws (extractedText p cmd submatch)) = true := by
  rw [get_bool_outcome p cmd submatch re hpat]
  unfold extractBool
  cases h : skipws (extractedText p cmd submatch) with
  | nil => simp
  | cons c cs =>
    simp only []
    by_cases ht : ['t', 'r', 'u', 'e'].isPrefixOf (c :: cs) = true
    · simp [ht]
    · rw [if_neg ht]
      split <;> simp [ht]

/-- What a request of `std::string` returns for a key declared as text with a
registered pattern: the first whitespace-delimited word of the selected
submatch text, and a failed assertion when there is none. -/
theorem get_string_outcome (p : Parser L E) (cmd : E) (submatch : Int) (re : L.Regex)
    (hpat : p.patmap cmd = some (.compiled re))
    (htype : p.typemap cmd = some L.hashString) (hnb : L.hashString ≠ L.hashBool) :
    (get (stringT L) p cmd submatch).outcome =
      if skipws (extractedText p cmd submatch) = [] then .aborted
      else .returned ((skipws (extractedText p cmd submatch)).takeWhile
        (fun x => !isSpace x)) := by
  have hs : (stringT L).hash = L.hashString := rfl
  rw [get_outcome_of_compiled (stringT L) p cmd submatch re hpat
    (by rw [CppMap.index_of_some _ htype, hs]; simp)]
  unfold conversion
  rw [hs, if_neg hnb]
  simp only [stringT, extractString]
  cases h : skipws (extractedText p cmd submatch) with
  | nil => simp
  | cons c cs => simp

/-- For a key declared `int` whose pattern matches the command line and whose
selected submatch is a non-empty run of decimal digits with a value below
`2^31`, `get<int>` returns that value, leaves the data members as they were
and prints the value. -/
theorem get_int_of_digits (p : Parser L E) (cmd : E) (submatch : Int) (re : L.Regex)
    (groups : List (Option Str)) (digits : Str)
    (htype : p.typemap cmd = some L.hashInt) (hpat : p.patmap cmd = some (.compiled re))
    (hmatch : L.regexSearch re p.cmdline = some groups)
    (htext : smatchStr groups submatch = digits)
    (hne : digits ≠ []) (hdig : ∀ c ∈ digits, c.isDigit = true)
    (hfit : digitsValue digits < 2 ^ 31) :
    get (intT L) p cmd submatch =
      ⟨.returned (digitsValue digits : Int), p,
        (toString (digitsValue digits : Int)).toList ++ ['\n']⟩ := by
  have hex : extractInt digits 0 = ((digitsValue digits : Int), true) :=
    extractInt_digits digits 0 hne hdig hfit
  unfold get
  rw [CppMap.index_of_some _ htype]
  simp only [CppMap.index_of_some _ hpat, hmatch, smatchOf, Option.getD_some, htext]
  rw [if_neg (by simp [intT])]
  simp only [intT, hex]
  split <;> simp

end GetLemmas

/-! ## The claims -/

section Claims

variable {L : Lib} {E : Type} [DecidableEq E] {Val : Type}

/-- C1: for a key whose declared tag is `declared`, `get<T>` throws
`BadParserType` exactly when `T` is not boolean (by its tag) and the tag of
`T` differs from the declared one; when it throws, the data members are
untouched and nothing is printed, so no search or conversion has taken place;
a boolean request never throws it; and a key declared integer requested as
text throws it (the tags of `int`, `bool` and `std::string` being different). -/
theorem get_badParserType_iff (T : CppType Val) (p : Parser L E) (cmd : E) (submatch : Int)
    (declared : Nat) (hdecl : p.typemap cmd = some declared) :
    ((get T p cmd submatch).outcome = .BadParserType ↔
        (T.hash ≠ L.hashBool ∧ T.hash ≠ declared)) ∧
      (T.hash ≠ L.hashBool → T.hash ≠ declared →
        get T p cmd submatch = ⟨.BadParserType, p, []⟩) ∧
      (get (boolT L) p cmd submatch).outcome ≠ .BadParserType ∧
      (declared = L.hashInt → L.hashString ≠ L.hashInt → L.hashString ≠ L.hashBool →
        (get (stringT L) p cmd submatch).outcome = .BadParserType) := by
  have hidx : p.typemap.index cmd 0 = (declared, p.typemap) := CppMap.index_of_some 0 hdecl
  have key : ∀ (V : Type) (T' : CppType V), T'.hash ≠ L.hashBool → T'.hash ≠ declared →
      get T' p cmd submatch = ⟨.BadParserType, p, []⟩ := by
    intro V T' hb hd
    rw [get_of_mismatch T' p cmd submatch (by rw [hidx]; exact ⟨hd, hb⟩), hidx]
  refine ⟨⟨?_, ?_⟩, key Val T, ?_, ?_⟩
  · intro hout
    by_contra hcon
    refine get_outcome_of_pass T p cmd submatch ?_ hout
    rw [hidx]
    intro h
    exact hcon ⟨h.2, h.1⟩
  · intro h
    rw [key Val T h.1 h.2]
  · exact get_outcome_of_pass (boolT L) p cmd submatch (by simp [boolT])
  · intro hint hsi hsb
    rw [key Str (stringT L) hsb (by rw [hint]; exact hsi)]

/-- C1, at the test: the key `IntegerVal` declared `int` and requested as
`std::string` throws `BadParserType`, with the parser untouched. -/
theorem get_badParserType_iff_witness :
    (intParser [line]).typemap Tests.IntegerVal = some refLib.hashInt ∧
      get (stringT refLib) (intParser [line]) Tests.IntegerVal 2 =
        ⟨.BadParserType, intParser [line], []⟩ :=
  ⟨by decide,
    (get_badParserType_iff (stringT refLib) (intParser [line]) Tests.IntegerVal 2
      refLib.hashInt (by decide)).2.1 (by decide) (by decide)⟩

/-- C2, the failing input: on the command line of `main`, with the pattern
`(-i\s*)(\d+)` declared `int` as in the test, the pattern matches and
`get<bool>(IntegerVal)` returns `false`; likewise with the boolean test
registered and the arguments `test --bool-val false`. -/
theorem get_bool_false_on_match :
    (setup [line] .IntegerVal refLib.hashInt "(-i\\s*)(\\d+)").map
        (fun p => (searchResult p .IntegerVal, (get (boolT refLib) p .IntegerVal).outcome)) =
        some (some [some "-i 90".toList, some "-i ".toList, some "90".toList],
          .returned false) ∧
      (setup ["test".toList, "--bool-val".toList, "false".toList] .BoolVal refLib.hashBool
          "(--bool-val\\s+)(true|false)").map
        (fun p => (p.cmdline, searchResult p .BoolVal,
          (get (boolT refLib) p .BoolVal).outcome)) =
        some ("test --bool-val false ".toList,
          some [some "--bool-val false".toList, some "--bool-val ".toList,
            some "false".toList],
          .returned false) := by
  constructor <;> decide

/-- C3, the failing input: on the command line of `main`, with the pattern
`(s\s+")(.*?)"` declared `std::string`, group 2 of the match is
`Hello, World!` and `get<std::string>(StringVal)` returns `Hello,`. -/
theorem get_string_stops_at_whitespace :
    (setup [line] .StringVal refLib.hashString "(s\\s+\")(.*?)\"").map
      (fun p => (searchResult p .StringVal, (get (stringT refLib) p .StringVal).outcome)) =
      some (some [some "s \"Hello, World!\"".toList, some "s \"".toList,
          some "Hello, World!".toList],
        .returned "Hello,".toList) := by
  decide

/-- C4: for a key declared `int` whose pattern, registered by `setPattern`, matches the command line and whose
selected submatch is a non-empty run of decimal digits with a value below
`2^31`, `get<int>` returns that value (leaving the parser as it was and printing
the value); in particular when the submatch is the decimal numeral of a number
`n < 2^31` it returns `n`; and on the command line of `main`, with the pattern
`(-i\s*)(\d+)` declared `int`, `get<int>(IntegerVal)` returns `90`. -/
theorem get_int_digits :
    (∀ (L : Lib) (E : Type) [DecidableEq E] (p : Parser L E) (cmd : E) (submatch : Int)
        (re : L.Regex) (groups : List (Option Str)) (digits : Str),
        p.typemap cmd = some L.hashInt → p.patmap cmd = some (.compiled re) →
        L.regexSearch re p.cmdline = some groups →
        smatchStr groups submatch = digits →
        digits ≠ [] → (∀ c ∈ digits, c.isDigit = true) → digitsValue digits < 2 ^ 31 →
        get (intT L) p cmd submatch =
          ⟨.returned (digitsValue digits : Int), p,
            (toString (digitsValue digits : Int)).toList ++ ['\n']⟩) ∧
      (∀ (L : Lib) (E : Type) [DecidableEq E] (p : Parser L E) (cmd : E) (submatch : Int)
        (re : L.Regex) (groups : List (Option Str)) (n : Nat),
        p.typemap cmd = some L.hashInt → p.patmap cmd = some (.compiled re) →
        L.regexSearch re p.cmdline = some groups →
        smatchStr groups submatch = Nat.toDigits 10 n → n < 2 ^ 31 →
        (get (intT L) p cmd submatch).outcome = .returned (n : Int)) ∧
      (setup [line] .IntegerVal refLib.hashInt "(-i\\s*)(\\d+)").map
          (fun p => (get (intT refLib) p .IntegerVal).outcome) = some (.returned 90) := by
  refine ⟨?_, ?_, by decide⟩
  · intro L E _ p cmd submatch re groups digits htype hpat hmatch htext hne hdig hfit
    exact get_int_of_digits p cmd submatch re groups digits htype hpat hmatch htext hne hdig hfit
  · intro L E _ p cmd submatch re groups n htype hpat hmatch htext hfit
    obtain ⟨hne, hdig, hval⟩ := toDigits_spec n
    rw [get_int_of_digits p cmd submatch re groups (Nat.toDigits 10 n) htype hpat hmatch htext
      hne hdig (by rw [hval]; exact hfit), hval]

/-- C4, at the test: the parser of `main` with the integer test registered
meets the hypotheses, the selected submatch being `90`, and `get<int>`
returns `90`, leaves the parser as it was and prints `90`. -/
theorem get_int_digits_witness :
    (intParser [line]).typemap Tests.IntegerVal = some refLib.hashInt ∧
      (intParser [line]).patmap Tests.IntegerVal = some (.compiled intRegex) ∧
      refLib.regexSearch intRegex (intParser [line]).cmdline =
        some [some "-i 90".toList, some "-i ".toList, some "90".toList] ∧
      digitsValue "90".toList = 90 ∧
      get (intT refLib) (intParser [line]) Tests.IntegerVal 2 =
        ⟨.returned 90, intParser [line], "90\n".toList⟩ :=
  ⟨by decide, by decide, by decide, by decide,
    get_int_digits.1 refLib Tests (intParser [line]) Tests.IntegerVal 2 intRegex
      [some "-i 90".toList, some "-i ".toList, some "90".toList] "90".toList
      (by decide) (by decide) (by decide) (by decide) (by decide) (by decide) (by decide)⟩

/-- C5: the command line of a newly constructed parser is the concatenation, in
order, of each token followed by one space: empty for no token, and for a
list that ends in the token `last` it is the command line of the tokens
before it, then `last` unchanged, then one space. -/
theorem cmdline_of_new (L : Lib) (E : Type) (argv init : List Str) (last : Str) :
    getCmdline (Parser.new L E argv) = (argv.map (fun s => s ++ [' '])).flatten ∧
      getCmdline (Parser.new L E []) = [] ∧
      getCmdline (Parser.new L E (init ++ [last])) =
        getCmdline (Parser.new L E init) ++ last ++ [' '] := by
  refine ⟨?_, rfl, ?_⟩
  · exact (foldl_cmdline [] argv).trans (List.nil_append _)
  · simp [getCmdline, Parser.new, List.foldl_append]

/-- C6, the claim as stated fails: with the arguments `-i abc` and the pattern
`(-i\s*)(\w+)` declared `int`, the selected submatch is `abc` and
`get<int>(IntegerVal)` ends in the failed assertion: the process is aborted; with
the arguments `--bool-val yes` and the pattern `(--bool-val\s+)(\w+)` declared
`bool`, the selected submatch is `yes` and `get<bool>(BoolVal)` returns `false`. -/
theorem get_int_aborts_on_text :
    (setup ["-i".toList, "abc".toList] .IntegerVal refLib.hashInt "(-i\\s*)(\\w+)").map
        (fun p => (searchResult p .IntegerVal, (get (intT refLib) p .IntegerVal).outcome)) =
        some (some [some "-i abc".toList, some "-i ".toList, some "abc".toList], .aborted) ∧
      (setup ["--bool-val".toList, "yes".toList] .BoolVal refLib.hashBool
          "(--bool-val\\s+)(\\w+)").map
        (fun p => (searchResult p .BoolVal, (get (boolT refLib) p .BoolVal).outcome)) =
        some (some [some "--bool-val yes".toList, some "--bool-val ".toList,
            some "yes".toList],
          .returned false) := by
  constructor <;> decide

/-- C6 (as amended): for a key with a registered pattern and a request that
passes the type check, a selected submatch text that cannot be parsed as `T`
(the extraction sets `failbit`) is never reported to the caller as an error:
when `T` is boolean (by its tag) `get<T>` returns the value the unchecked
extraction left in `temp`, which for `bool` is `false`; for every other `T` the
`assert` on the extraction fails and the process is aborted. -/
theorem get_of_failed_extraction (T : CppType Val) (p : Parser L E) (cmd : E)
    (submatch : Int) (re : L.Regex) (hpat : p.patmap cmd = some (.compiled re))
    (hpass : passesTypeCheck T p cmd)
    (hfail : (T.extract (extractedText p cmd submatch) T.init).2 = false) :
    (get T p cmd submatch).outcome =
        (if T.hash = L.hashBool then
          .returned (T.extract (extractedText p cmd submatch) T.init).1
        else .aborted) ∧
      ((extractBool (extractedText p cmd submatch) false).2 = false →
        (get (boolT L) p cmd submatch).outcome = .returned false) := by
  constructor
  · rw [get_outcome_of_compiled T p cmd submatch re hpat ((guard_iff T p cmd).mpr hpass)]
    unfold conversion
    simp [hfail]
  · intro hb
    rw [get_bool_outcome p cmd submatch re hpat, extractBool_fail _ hb]

/-- C6 (as amended), at the test: with the integer test registered on the
command line of `main`, submatch 1 is `-i `, which is no number and no
boolean: `get<int>(IntegerVal, 1)` is aborted and `get<bool>(IntegerVal, 1)`
returns `false`. -/
theorem get_of_failed_extraction_witness :
    (intParser [line]).patmap Tests.IntegerVal = some (.compiled intRegex) ∧
      declaredTag (intParser [line]) Tests.IntegerVal = (intT refLib).hash ∧
      extractedText (intParser [line]) Tests.IntegerVal 1 = "-i ".toList ∧
      (extractInt "-i ".toList 0).2 = false ∧
      (get (intT refLib) (intParser [line]) Tests.IntegerVal 1).outcome = .aborted ∧
      (get (boolT refLib) (intParser [line]) Tests.IntegerVal 1).outcome = .returned false :=
  ⟨by decide, by decide, by decide, by decide,
    (get_of_failed_extraction (intT refLib) (intParser [line]) Tests.IntegerVal 1 intRegex
      (by decide) (Or.inr (by decide)) (by decide)).1,
    (get_of_failed_extraction (intT refLib) (intParser [line]) Tests.IntegerVal 1 intRegex
      (by decide) (Or.inr (by decide)) (by decide)).2 (by decide)⟩

/-- C7, the claim as stated fails: with the pattern of the boolean test
registered on the command line of `main` and no type declared for `BoolVal`,
`get<bool>(BoolVal)` reports no error and returns the value `true`; and on the
newly constructed parser, where nothing is registered, `get<bool>(BoolVal)` passes
the guard, searches with the default-constructed pattern and is killed: no
error reaches the caller. -/
theorem get_bool_without_type_returns :
    (setupPattern [line] .BoolVal "(--bool-val\\s+)(true|false)").map
        (fun p => (p.typemap .BoolVal, (get (boolT refLib) p .BoolVal).outcome)) =
        some (none, .returned true) ∧
      (Parser.new refLib Tests [line]).typemap Tests.BoolVal = none ∧
      (Parser.new refLib Tests [line]).patmap Tests.BoolVal = none ∧
      (get (boolT refLib) (Parser.new refLib Tests [line]) Tests.BoolVal).outcome =
        .crashed := by
  refine ⟨by decide, by decide, by decide, by decide⟩

/-- C7 (as amended): for a key with no registered pattern and/or no declared
type, the only error `get<T>` reports is `BadParserType`, and only when the type
check fails, a missing declaration reading as the tag `0`: then it throws
before any search or conversion (nothing printed, pattern map untouched, the
type map as it was but for the entry `0` of a key with no declared type).
When the check passes no error is reported: with no registered pattern the
search runs on the default-constructed pattern and the call is killed in
`sm_result.str(submatch)`; with a registered pattern and no declared type the call
ends as the conversion of the selected submatch text does, as for a
declared key. -/
theorem get_unregistered (T : CppType Val) (p : Parser L E) (cmd : E) (submatch : Int) :
    (p.typemap cmd = none → T.hash ≠ 0 → T.hash ≠ L.hashBool →
        get T p cmd submatch =
          ⟨.BadParserType, { p with typemap := p.typemap.assign cmd 0 }, []⟩) ∧
      (∀ declared, p.typemap cmd = some declared → T.hash ≠ declared →
        T.hash ≠ L.hashBool → get T p cmd submatch = ⟨.BadParserType, p, []⟩) ∧
      (passesTypeCheck T p cmd → p.patmap cmd = none →
        (get T p cmd submatch).outcome = .crashed ∧ (get T p cmd submatch).out = []) ∧
      (∀ re, passesTypeCheck T p cmd → p.typemap cmd = none →
        p.patmap cmd = some (.compiled re) →
        (get T p cmd submatch).outcome = conversion L T (extractedText p cmd submatch)) := by
  refine ⟨?_, ?_, ?_, ?_⟩
  · intro htype h0 hb
    have hidx : p.typemap.index cmd 0 = (0, p.typemap.assign cmd 0) :=
      CppMap.index_of_none 0 htype
    rw [get_of_mismatch T p cmd submatch (by rw [hidx]; exact ⟨h0, hb⟩), hidx]
  · intro declared htype hd hb
    have hidx : p.typemap.index cmd 0 = (declared, p.typemap) := CppMap.index_of_some 0 htype
    rw [get_of_mismatch T p cmd submatch (by rw [hidx]; exact ⟨hd, hb⟩), hidx]
  · intro hpass hpat
    exact get_outcome_of_empty T p cmd submatch (Or.inl hpat) ((guard_iff T p cmd).mpr hpass)
  · intro re hpass _ hpat
    exact get_outcome_of_compiled T p cmd submatch re hpat ((guard_iff T p cmd).mpr hpass)

/-- C7 (as amended), at the test: on the newly constructed parser of `main`
`get<int>(IntegerVal)` throws `BadParserType`; with only the type `int` declared it is
killed; with only the pattern of the integer test registered, `get<bool>(IntegerVal)`
returns `false`, the conversion of the submatch `90`. -/
theorem get_unregistered_witness :
    (Parser.new refLib Tests [line]).typemap Tests.IntegerVal = none ∧
      (get (intT refLib) (Parser.new refLib Tests [line]) Tests.IntegerVal 2).outcome =
        .BadParserType ∧
      (setType (Parser.new refLib Tests [line]) Tests.IntegerVal refLib.hashInt).patmap
        Tests.IntegerVal = none ∧
      (get (intT refLib)
        (setType (Parser.new refLib Tests [line]) Tests.IntegerVal refLib.hashInt)
        Tests.IntegerVal 2).outcome = .crashed ∧
      (intPatternOnly [line]).typemap Tests.IntegerVal = none ∧
      extractedText (intPatternOnly [line]) Tests.IntegerVal 2 = "90".toList ∧
      (get (boolT refLib) (intPatternOnly [line]) Tests.IntegerVal 2).outcome =
        .returned false :=
  ⟨by decide,
    congrArg GetResult.outcome
      ((get_unregistered (intT refLib) (Parser.new refLib Tests [line]) Tests.IntegerVal 2).1
        (by decide) (by decide) (by decide)),
    by decide,
    ((get_unregistered (intT refLib)
        (setType (Parser.new refLib Tests [line]) Tests.IntegerVal refLib.hashInt)
        Tests.IntegerVal 2).2.2.1 (Or.inr (by decide)) (by decide)).1,
    by decide, by decide,
    ((get_unregistered (boolT refLib) (intPatternOnly [line]) Tests.IntegerVal 2).2.2.2
      intRegex (Or.inl rfl) (by decide) (by decide)).trans (by decide)⟩

/-- C8, the claim as stated fails: on the newly constructed parser of `main`,
`get<int>(IntegerVal)` fails with `BadParserType` and leaves a new entry, the tag `0`,
in the type map; and with only the pattern of the boolean test registered,
`get<bool>(BoolVal)` returns `true` and leaves the same new entry for `BoolVal`. -/
theorem get_mutates_typemap :
    (Parser.new refLib Tests [line]).typemap Tests.IntegerVal = none ∧
      (get (intT refLib) (Parser.new refLib Tests [line]) Tests.IntegerVal).outcome =
        .BadParserType ∧
      (get (intT refLib) (Parser.new refLib Tests [line]) Tests.IntegerVal).state.typemap
          Tests.IntegerVal = some 0 ∧
      ¬ ((get (intT refLib) (Parser.new refLib Tests [line]) Tests.IntegerVal).state.typemap =
          (Parser.new refLib Tests [line]).typemap) ∧
      (setupPattern [line] .BoolVal "(--bool-val\\s+)(true|false)").map
        (fun p => (p.typemap .BoolVal, (get (boolT refLib) p .BoolVal).outcome,
          (get (boolT refLib) p .BoolVal).state.typemap .BoolVal)) =
        some (none, .returned true, some 0) := by
  refine ⟨by decide, by decide, by decide, ?_, by decide⟩
  intro h
  exact absurd (congrFun h Tests.IntegerVal) (by decide)

/-- C8 (as amended): a call of `get` that returns a value or fails (it throws
`BadParserType` or fails the `assert`) leaves the command line and the pattern map
exactly as they were; it leaves the type map exactly as it was when the key
has a declared type, and when it has none the type map is as it was but for
one new entry, the tag `0` for that key. -/
theorem get_frame (T : CppType Val) (p : Parser L E) (cmd : E) (submatch : Int) :
    (get T p cmd submatch).state.cmdline = p.cmdline ∧
      ((get T p cmd submatch).outcome ≠ .crashed →
        (get T p cmd submatch).state.patmap = p.patmap) ∧
      (∀ declared, p.typemap cmd = some declared →
        (get T p cmd submatch).state.typemap = p.typemap) ∧
      (p.typemap cmd = none →
        (get T p cmd submatch).state.typemap = p.typemap.assign cmd 0) := by
  refine ⟨?_, get_patmap_of_not_crashed T p cmd submatch, ?_, ?_⟩
  · rw [get_state]
    split <;> rfl
  · intro declared htype
    rw [get_state, CppMap.index_of_some _ htype]
    split <;> rfl
  · intro htype
    rw [get_state, CppMap.index_of_none _ htype]
    split <;> rfl

/-- C8 (as amended), at the test: with the integer test registered, `get<int>`
returns and leaves the parser exactly as it was; on the newly constructed
parser the type map gets the entry `0` for the key. -/
theorem get_frame_witness :
    (intParser [line]).typemap Tests.IntegerVal = some refLib.hashInt ∧
      (get (intT refLib) (intParser [line]) Tests.IntegerVal 2).outcome = .returned 90 ∧
      (get (intT refLib) (intParser [line]) Tests.IntegerVal 2).state.patmap =
        (intParser [line]).patmap ∧
      (get (intT refLib) (intParser [line]) Tests.IntegerVal 2).state.typemap =
        (intParser [line]).typemap ∧
      (Parser.new refLib Tests [line]).typemap Tests.IntegerVal = none ∧
      (get (intT refLib) (Parser.new refLib Tests [line]) Tests.IntegerVal 2).state.typemap =
        (Parser.new refLib Tests [line]).typemap.assign Tests.IntegerVal 0 :=
  ⟨by decide, by decide,
    (get_frame (intT refLib) (intParser [line]) Tests.IntegerVal 2).2.1 (by decide),
    (get_frame (intT refLib) (intParser [line]) Tests.IntegerVal 2).2.2.1 refLib.hashInt
      (by decide),
    by decide,
    (get_frame (intT refLib) (Parser.new refLib Tests [line]) Tests.IntegerVal 2).2.2.2
      (by decide)⟩

/-- C9: a second call of `get<T>` with the same arguments, run on the data
members left by the first call, ends the same way (same value, or same
failure) and prints the same text. -/
theorem get_twice (T : CppType Val) (p : Parser L E) (cmd : E) (submatch : Int) :
    (get T (get T p cmd submatch).state cmd submatch).outcome =
        (get T p cmd submatch).outcome ∧
      (get T (get T p cmd submatch).state cmd submatch).out = (get T p cmd submatch).out := by
  apply get_congr
  · rw [get_state]
    split <;> simp only [CppMap.index_index]
  · rw [get_state]
    split
    · rfl
    · simp only [CppMap.index_index]
  · rw [get_state]
    split <;> rfl

/-- C10: when the pattern registered by `setPattern` is not found in the command line, a boolean
request returns `false`, for every declared type and every submatch index:
the text of the submatch is empty and an empty text converts to `false`. -/
theorem get_bool_of_no_match (p : Parser L E) (cmd : E) (submatch : Int) (re : L.Regex)
    (hpat : p.patmap cmd = some (.compiled re)) (hsearch : L.regexSearch re p.cmdline = none) :
    extractedText p cmd submatch = [] ∧
      extractBool [] false = (false, false) ∧
      (get (boolT L) p cmd submatch).outcome = .returned false := by
  have htext : extractedText p cmd submatch = [] := by
    unfold extractedText searchResult
    simp [hpat, hsearch, smatchOf, smatchStr_nil]
  refine ⟨htext, extractBool_nil false, ?_⟩
  rw [get_bool_outcome p cmd submatch re hpat, htext, extractBool_nil]

/-- C10, at an instance: the pattern of the integer test is not found in the
command line `test `, and the boolean request returns `false`. -/
theorem get_bool_of_no_match_witness :
    (intParser ["test".toList]).patmap Tests.IntegerVal = some (.compiled intRegex) ∧
      refLib.regexSearch intRegex (intParser ["test".toList]).cmdline = none ∧
      (get (boolT refLib) (intParser ["test".toList]) Tests.IntegerVal 2).outcome =
        .returned false :=
  ⟨by decide, by decide,
    (get_bool_of_no_match (intParser ["test".toList]) Tests.IntegerVal 2 intRegex
      (by decide) (by decide)).2.2⟩

end Claims

end parseman
